import Mathlib

/-!
Verification of the blob document type (`jupyter_ydoc/yblob.py`).

The document content is stored in the CRDT map node `source` under the key
`"base64"`.  `set` accepts bytes (base64-encoded via `base64.b64encode`) or a
string (stored as-is); `get` reads the field (default `""`) and decodes it with
`base64.b64decode`, i.e. CPython `binascii.a2b_base64` in non-strict mode.

Bytes are modelled as `Nat` values below 256, Python strings as Lean `String`
(the stored text is ASCII, so character-level decoding agrees with the
byte-level C loop: every non-ASCII character turns into bytes outside the
base64 alphabet, all of which the non-strict decoder skips).
-/

/-- The base64 alphabet, as in CPython `binascii.table_b2a_base64`. -/
def b64alphabet : List Char :=
  "ABCDEFGHIJKLMNOPQRSTUVWXYZabcdefghijklmnopqrstuvwxyz0123456789+/".toList

/-- Lookup in the encoding table; the index is always masked to 6 bits. -/
def table_b2a_base64 (n : Nat) : Char := b64alphabet.getD n '#'

/-- CPython `binascii.table_a2b_base64`: maps an input character to its 6-bit
value, or `none` for characters outside the alphabet (value -1 in C). -/
def table_a2b_base64 (c : Char) : Option Nat :=
  if 'A' ≤ c ∧ c ≤ 'Z' then some (c.toNat - 65)
  else if 'a' ≤ c ∧ c ≤ 'z' then some (c.toNat - 71)
  else if '0' ≤ c ∧ c ≤ '9' then some (c.toNat + 4)
  else if c = '+' then some 62
  else if c = '/' then some 63
  else none

/-- The inner `while (leftbits >= 6)` loop of `binascii.b2a_base64`: emit
6-bit groups from the accumulator, returning the emitted characters and the
remaining bit count. -/
def emit6 (leftchar leftbits : Nat) : List Char × Nat :=
  if h : 6 ≤ leftbits then
    let c := table_b2a_base64 ((leftchar >>> (leftbits - 6)) &&& 63)
    let r := emit6 leftchar (leftbits - 6)
    (c :: r.1, r.2)
  else ([], leftbits)
termination_by leftbits
decreasing_by omega

/-- The main loop of `binascii.b2a_base64` (newline=False): shift each byte
into the accumulator (a C unsigned int, hence the mod 2^32), emit ready 6-bit
groups, and pad the tail with `=`. -/
def b2a_loop : List Nat → Nat → Nat → List Char
  | [], leftchar, leftbits =>
    if leftbits = 2 then [table_b2a_base64 ((leftchar &&& 3) <<< 4), '=', '=']
    else if leftbits = 4 then [table_b2a_base64 ((leftchar &&& 15) <<< 2), '=']
    else []
  | b :: rest, leftchar, leftbits =>
    let lc := ((leftchar <<< 8) ||| b) % 2 ^ 32
    let e := emit6 lc (leftbits + 8)
    e.1 ++ b2a_loop rest lc e.2

/-- `base64.b64encode` on a byte sequence (as characters of the result). -/
def b64encode (b : List Nat) : List Char := b2a_loop b 0 0

/-- Python exceptions reachable from `YBlob.get`. -/
inductive PyError where
  | binascii (msg : String)
  | attributeError
deriving DecidableEq

/-- The loop of `binascii.a2b_base64` in non-strict mode (the mode used by
`base64.b64decode` with validate=False): characters outside the alphabet are
skipped; `=` at quad position >= 2 counts toward padding and a completed pad
group ends decoding successfully; a non-multiple-of-4 count of data
characters is an error at the end of input. -/
def a2b_loop : List Char → Nat → Nat → Nat → List Nat → Except PyError (List Nat)
  | [], quadPos, _, _, out =>
    if quadPos = 0 then .ok out
    else if quadPos = 1 then
      .error (.binascii "Invalid base64-encoded string: number of data characters cannot be 1 more than a multiple of 4")
    else .error (.binascii "Incorrect padding")
  | c :: rest, quadPos, leftchar, pads, out =>
    if c = '=' then
      if 2 ≤ quadPos then
        if 4 ≤ quadPos + (pads + 1) then .ok out
        else a2b_loop rest quadPos leftchar (pads + 1) out
      else a2b_loop rest quadPos leftchar pads out
    else
      match table_a2b_base64 c with
      | none => a2b_loop rest quadPos leftchar pads out
      | some v =>
        match quadPos with
        | 0 => a2b_loop rest 1 v 0 out
        | 1 => a2b_loop rest 2 (v &&& 15) 0 (out ++ [(leftchar <<< 2) ||| (v >>> 4)])
        | 2 => a2b_loop rest 3 (v &&& 3) 0 (out ++ [(leftchar <<< 4) ||| (v >>> 2)])
        | _ => a2b_loop rest 0 0 0 (out ++ [(leftchar <<< 6) ||| v])

/-- `base64.b64decode` (validate=False) on the characters of a string. -/
def b64decode (s : List Char) : Except PyError (List Nat) := a2b_loop s 0 0 0 []

/-- Python values that can reach `YBlob.set` and be stored in the source map:
bytes, str, or some other object (an int stands for the non-bytes, non-str
case; pycrdt maps accept integers as values). -/
inductive PyValue where
  | bytes (b : List Nat)
  | str (s : String)
  | int (n : Int)
deriving DecidableEq

/-- Association-list model of a pycrdt Map node: set a key. -/
def mapSet (m : List (String × PyValue)) (k : String) (v : PyValue) :
    List (String × PyValue) :=
  match m with
  | [] => [(k, v)]
  | (k1, v1) :: rest => if k1 = k then (k, v) :: rest else (k1, v1) :: mapSet rest k v

/-- Association-list model of a pycrdt Map node: `m.get(k, dflt)`. -/
def mapGet (m : List (String × PyValue)) (k : String) (dflt : PyValue) : PyValue :=
  match m with
  | [] => dflt
  | (k1, v1) :: rest => if k1 = k then v1 else mapGet rest k dflt

/-- Whether a key is present in the map. -/
def mapHasKey (m : List (String × PyValue)) (k : String) : Bool :=
  match m with
  | [] => false
  | (k1, _) :: rest => k1 == k || mapHasKey rest k

/-- One YBlob instance: the two CRDT map nodes (`state` from the base
document, `source` created by the constructor), the active observer
subscriptions registered on each node (pairs of handle id and the label bound
by the code, since CRDT observation does not deduplicate handles), the
subscription table of the base document keyed by node, and a fresh-handle
counter. -/
structure YBlob where
  ystate : List (String × PyValue)
  ysource : List (String × PyValue)
  stateActive : List (Nat × String)
  sourceActive : List (Nat × String)
  subTableState : Option Nat
  subTableSource : Option Nat
  nextSub : Nat
deriving DecidableEq

/-- A freshly constructed YBlob over a new Doc: empty maps, no
subscriptions. -/
def YBlob.init : YBlob :=
  { ystate := [], ysource := [], stateActive := [], sourceActive := [],
    subTableState := none, subTableSource := none, nextSub := 0 }

/-- The `version` property: a constant. -/
def YBlob.version (_d : YBlob) : String := "1.0.0"

/-- `YBlob.get`: read `source` at `"base64"` with default `""`, encode the
string back to bytes and base64-decode it.  A stored non-string value has no
`encode` attribute, hence an AttributeError. -/
def YBlob.get (d : YBlob) : Except PyError (List Nat) :=
  match mapGet d.ysource "base64" (.str "") with
  | .str s => b64decode s.data
  | _ => .error .attributeError

/-- `YBlob.set`: bytes are base64-encoded to a string first; any other value
is stored as-is under `source` key `"base64"`. -/
def YBlob.set (d : YBlob) (value : PyValue) : YBlob :=
  let v := match value with
    | .bytes b => PyValue.str (String.mk (b64encode b))
    | other => other
  { d with ysource := mapSet d.ysource "base64" v }

/-- Modelled from the spec: `unobserve` lives in `ybasedoc.py`, which is not
in src.  Per the spec it removes all active subscriptions registered by this
document instance (releasing each handle held in the per-node subscription
table and emptying the table) and is a no-op when none are active. -/
def YBlob.unobserve (d : YBlob) : YBlob :=
  let d1 := match d.subTableState with
    | some h => { d with stateActive := d.stateActive.filter (fun p => p.1 != h) }
    | none => d
  let d2 := match d1.subTableSource with
    | some h => { d1 with sourceActive := d1.sourceActive.filter (fun p => p.1 != h) }
    | none => d1
  { d2 with subTableState := none, subTableSource := none }

/-- `YBlob.observe`: first `unobserve`, then register the callback with bound
label `"state"` on the state node and with bound label `"source"` on the
source node, recording each handle in the subscription table. -/
def YBlob.observe (d : YBlob) : YBlob :=
  let d0 := d.unobserve
  let d1 := { d0 with stateActive := d0.stateActive ++ [(d0.nextSub, "state")],
                      subTableState := some d0.nextSub, nextSub := d0.nextSub + 1 }
  { d1 with sourceActive := d1.sourceActive ++ [(d1.nextSub, "source")],
            subTableSource := some d1.nextSub, nextSub := d1.nextSub + 1 }

/-- Iterated `observe` calls. -/
def iterObserve : Nat → YBlob → YBlob
  | 0, d => d
  | n + 1, d => YBlob.observe (iterObserve n d)

/-- Modelled from the spec: the CRDT substrate invokes, for each mutation of
the source node, every active subscription on that node exactly once; the
first argument each callback receives is the label the code bound to it.
This lists those labels, in registration order, for one source mutation. -/
def sourceEventLabels (d : YBlob) : List String := d.sourceActive.map (fun p => p.2)

/-- Labels delivered for one mutation of the state node. -/
def stateEventLabels (d : YBlob) : List String := d.stateActive.map (fun p => p.2)

/-- Whether a character is in the base64 alphabet. -/
def isB64Char (c : Char) : Bool := (table_a2b_base64 c).isSome

/-- Valid base64 text in the sense of the spec (RFC 4648): groups of four
alphabet characters, the last group optionally padded to `xx==` or `xxx=`. -/
def validGroups : List Char → Bool
  | [] => true
  | a :: b :: c :: d :: rest =>
    isB64Char a && isB64Char b &&
    (if rest.isEmpty then
      (isB64Char c && isB64Char d) || (isB64Char c && d == '=') || (c == '=' && d == '=')
    else isB64Char c && isB64Char d && validGroups rest)
  | _ => false

/-- Validity of a stored string. -/
def isValidBase64 (s : String) : Bool := validGroups s.data

/-! ### Bridging lemmas: bitwise operations as arithmetic -/

/-- Shifted disjoint or is addition. -/
theorem shiftLeft_lor_eq (a b k : Nat) (h : b < 2 ^ k) : (a <<< k) ||| b = a * 2 ^ k + b := by
  rw [Nat.shiftLeft_eq, Nat.mul_comm a, ← Nat.mul_add_lt_is_or h, Nat.mul_comm]

/-- Masking with 63 is mod 64. -/
theorem and_63 (x : Nat) : x &&& 63 = x % 64 := by
  have := Nat.and_pow_two_sub_one_eq_mod x 6
  norm_num at this
  exact this

/-- Masking with 15 is mod 16. -/
theorem and_15 (x : Nat) : x &&& 15 = x % 16 := by
  have := Nat.and_pow_two_sub_one_eq_mod x 4
  norm_num at this
  exact this

/-- Masking with 3 is mod 4. -/
theorem and_3 (x : Nat) : x &&& 3 = x % 4 := by
  have := Nat.and_pow_two_sub_one_eq_mod x 2
  norm_num at this
  exact this

/-! ### Evaluation lemmas for the encoding loop -/

/-- Unfolding equation of `emit6`. -/
theorem emit6_eq (lc lb : Nat) : emit6 lc lb =
    if 6 ≤ lb then
      ((table_b2a_base64 ((lc >>> (lb - 6)) &&& 63)) :: (emit6 lc (lb - 6)).1,
        (emit6 lc (lb - 6)).2)
    else ([], lb) := by
  rw [emit6]
  split <;> rfl

/-- `emit6` on 8 pending bits: one character, 2 bits left. -/
theorem emit6_8 (lc : Nat) :
    emit6 lc 8 = ([table_b2a_base64 (lc / 4 % 64)], 2) := by
  rw [emit6_eq, if_pos (by omega), emit6_eq, if_neg (by omega)]
  norm_num [and_63, Nat.shiftRight_eq_div_pow]

/-- `emit6` on 10 pending bits: one character, 4 bits left. -/
theorem emit6_10 (lc : Nat) :
    emit6 lc 10 = ([table_b2a_base64 (lc / 16 % 64)], 4) := by
  rw [emit6_eq, if_pos (by omega), emit6_eq, if_neg (by omega)]
  norm_num [and_63, Nat.shiftRight_eq_div_pow]

/-- `emit6` on 12 pending bits: two characters, 0 bits left. -/
theorem emit6_12 (lc : Nat) :
    emit6 lc 12 = ([table_b2a_base64 (lc / 64 % 64), table_b2a_base64 (lc % 64)], 0) := by
  rw [emit6_eq, if_pos (by omega), emit6_eq, if_pos (by omega), emit6_eq, if_neg (by omega)]
  norm_num [and_63, Nat.shiftRight_eq_div_pow]

/-- Unfolding equation of `b2a_loop` on a byte. -/
theorem b2a_cons (b : Nat) (rest : List Nat) (L lb : Nat) :
    b2a_loop (b :: rest) L lb =
      (emit6 (((L <<< 8) ||| b) % 2 ^ 32) (lb + 8)).1 ++
        b2a_loop rest (((L <<< 8) ||| b) % 2 ^ 32) (emit6 (((L <<< 8) ||| b) % 2 ^ 32) (lb + 8)).2 := by
  rfl

/-- Encoding a full 3-byte group: four characters determined by the three
bytes alone (the stale accumulator bits are masked away), then the loop
continues on the remaining bytes with zero pending bits. -/
theorem b2a_chunk (L b1 b2 b3 : Nat) (rest : List Nat)
    (h1 : b1 < 256) (h2 : b2 < 256) (h3 : b3 < 256) :
    ∃ L2, b2a_loop (b1 :: b2 :: b3 :: rest) L 0 =
      table_b2a_base64 (b1 / 4) :: table_b2a_base64 (b1 % 4 * 16 + b2 / 16) ::
      table_b2a_base64 (b2 % 16 * 4 + b3 / 64) :: table_b2a_base64 (b3 % 64) ::
      b2a_loop rest L2 0 := by
  rw [b2a_cons, shiftLeft_lor_eq _ _ 8 (by omega)]
  set lc1 := (L * 2 ^ 8 + b1) % 2 ^ 32 with hlc1
  rw [emit6_8]
  rw [b2a_cons, shiftLeft_lor_eq _ _ 8 (by omega)]
  set lc2 := (lc1 * 2 ^ 8 + b2) % 2 ^ 32 with hlc2
  rw [emit6_10]
  rw [b2a_cons, shiftLeft_lor_eq _ _ 8 (by omega)]
  set lc3 := (lc2 * 2 ^ 8 + b3) % 2 ^ 32 with hlc3
  rw [emit6_12]
  refine ⟨lc3, ?_⟩
  have e1 : lc1 / 4 % 64 = b1 / 4 := by rw [hlc1]; omega
  have e2 : lc2 / 16 % 64 = b1 % 4 * 16 + b2 / 16 := by rw [hlc2, hlc1]; omega
  have e3 : lc3 / 64 % 64 = b2 % 16 * 4 + b3 / 64 := by rw [hlc3, hlc2]; omega
  have e4 : lc3 % 64 = b3 % 64 := by rw [hlc3]; omega
  rw [e1, e2, e3, e4]
  simp

/-- Encoding a trailing single byte: two characters and two pad marks. -/
theorem b2a_tail1 (L b1 : Nat) (h1 : b1 < 256) :
    b2a_loop [b1] L 0 =
      [table_b2a_base64 (b1 / 4), table_b2a_base64 (b1 % 4 * 16), '=', '='] := by
  rw [b2a_cons, shiftLeft_lor_eq _ _ 8 (by omega)]
  set lc1 := (L * 2 ^ 8 + b1) % 2 ^ 32 with hlc1
  rw [emit6_8]
  have e1 : lc1 / 4 % 64 = b1 / 4 := by rw [hlc1]; omega
  have e2 : (lc1 &&& 3) <<< 4 = b1 % 4 * 16 := by
    rw [and_3, Nat.shiftLeft_eq, hlc1]; norm_num; omega
  show table_b2a_base64 (lc1 / 4 % 64) ::
      (if (2 : Nat) = 2 then [table_b2a_base64 ((lc1 &&& 3) <<< 4), '=', '=']
       else if (2 : Nat) = 4 then [table_b2a_base64 ((lc1 &&& 15) <<< 2), '='] else []) = _
  rw [if_pos rfl, e1, e2]

/-- Encoding a trailing pair of bytes: three characters and one pad mark. -/
theorem b2a_tail2 (L b1 b2 : Nat) (h1 : b1 < 256) (h2 : b2 < 256) :
    b2a_loop [b1, b2] L 0 =
      [table_b2a_base64 (b1 / 4), table_b2a_base64 (b1 % 4 * 16 + b2 / 16),
       table_b2a_base64 (b2 % 16 * 4), '='] := by
  rw [b2a_cons, shiftLeft_lor_eq _ _ 8 (by omega)]
  set lc1 := (L * 2 ^ 8 + b1) % 2 ^ 32 with hlc1
  rw [emit6_8]
  rw [b2a_cons, shiftLeft_lor_eq _ _ 8 (by omega)]
  set lc2 := (lc1 * 2 ^ 8 + b2) % 2 ^ 32 with hlc2
  rw [emit6_10]
  have e1 : lc1 / 4 % 64 = b1 / 4 := by rw [hlc1]; omega
  have e2 : lc2 / 16 % 64 = b1 % 4 * 16 + b2 / 16 := by rw [hlc2, hlc1]; omega
  have e3 : (lc2 &&& 15) <<< 2 = b2 % 16 * 4 := by
    rw [and_15, Nat.shiftLeft_eq, hlc2]; norm_num; omega
  show table_b2a_base64 (lc1 / 4 % 64) :: table_b2a_base64 (lc2 / 16 % 64) ::
      (if (4 : Nat) = 2 then [table_b2a_base64 ((lc2 &&& 3) <<< 4), '=', '=']
       else if (4 : Nat) = 4 then [table_b2a_base64 ((lc2 &&& 15) <<< 2), '='] else []) = _
  rw [if_neg (by omega), if_pos rfl, e1, e2, e3]

/-- Encoding no bytes gives no characters. -/
theorem b2a_nil (L : Nat) : b2a_loop [] L 0 = [] := rfl

/-! ### Evaluation lemmas for the decoding loop -/

/-- The decoding table inverts the encoding table on 6-bit values. -/
theorem table_roundtrip : ∀ n, n < 64 → table_a2b_base64 (table_b2a_base64 n) = some n := by
  decide

/-- No alphabet character is the pad mark. -/
theorem table_ne_pad : ∀ n, n < 64 → ¬(table_b2a_base64 n = '=') := by
  decide

/-- One decoding step on an alphabet character. -/
theorem a2b_data (n : Nat) (hn : n < 64) (rest : List Char) (q lc pads : Nat)
    (out : List Nat) :
    a2b_loop (table_b2a_base64 n :: rest) q lc pads out =
      match q with
      | 0 => a2b_loop rest 1 n 0 out
      | 1 => a2b_loop rest 2 (n &&& 15) 0 (out ++ [(lc <<< 2) ||| (n >>> 4)])
      | 2 => a2b_loop rest 3 (n &&& 3) 0 (out ++ [(lc <<< 4) ||| (n >>> 2)])
      | _ => a2b_loop rest 0 0 0 (out ++ [(lc <<< 6) ||| n]) := by
  rw [a2b_loop, if_neg (table_ne_pad n hn), table_roundtrip n hn]

/-- Decoding step, quad position 0. -/
theorem a2b_data0 (n : Nat) (hn : n < 64) (rest : List Char) (lc pads : Nat)
    (out : List Nat) :
    a2b_loop (table_b2a_base64 n :: rest) 0 lc pads out = a2b_loop rest 1 n 0 out :=
  a2b_data n hn rest 0 lc pads out

/-- Decoding step, quad position 1: first output byte of the group. -/
theorem a2b_data1 (n : Nat) (hn : n < 64) (rest : List Char) (lc pads : Nat)
    (out : List Nat) :
    a2b_loop (table_b2a_base64 n :: rest) 1 lc pads out =
      a2b_loop rest 2 (n % 16) 0 (out ++ [lc * 4 + n / 16]) := by
  rw [a2b_data n hn rest 1 lc pads out]
  have e : (lc <<< 2) ||| (n >>> 4) = lc * 4 + n / 16 := by
    rw [Nat.shiftRight_eq_div_pow, shiftLeft_lor_eq _ _ 2 (by omega)]; norm_num
  rw [and_15]
  show a2b_loop rest 2 (n % 16) 0 (out ++ [(lc <<< 2) ||| (n >>> 4)]) = _
  rw [e]

/-- Decoding step, quad position 2: second output byte of the group. -/
theorem a2b_data2 (n : Nat) (hn : n < 64) (rest : List Char) (lc pads : Nat)
    (out : List Nat) :
    a2b_loop (table_b2a_base64 n :: rest) 2 lc pads out =
      a2b_loop rest 3 (n % 4) 0 (out ++ [lc * 16 + n / 4]) := by
  rw [a2b_data n hn rest 2 lc pads out]
  have e : (lc <<< 4) ||| (n >>> 2) = lc * 16 + n / 4 := by
    rw [Nat.shiftRight_eq_div_pow, shiftLeft_lor_eq _ _ 4 (by omega)]; norm_num
  rw [and_3]
  show a2b_loop rest 3 (n % 4) 0 (out ++ [(lc <<< 4) ||| (n >>> 2)]) = _
  rw [e]

/-- Decoding step, quad position 3: third output byte of the group. -/
theorem a2b_data3 (n : Nat) (hn : n < 64) (rest : List Char) (lc pads : Nat)
    (out : List Nat) :
    a2b_loop (table_b2a_base64 n :: rest) 3 lc pads out =
      a2b_loop rest 0 0 0 (out ++ [lc * 64 + n]) := by
  rw [a2b_data n hn rest 3 lc pads out]
  have e : (lc <<< 6) ||| n = lc * 64 + n := by
    rw [shiftLeft_lor_eq _ _ 6 (by omega)]; norm_num
  show a2b_loop rest 0 0 0 (out ++ [(lc <<< 6) ||| n]) = _
  rw [e]

/-- One decoding step on the pad mark. -/
theorem a2b_pad (rest : List Char) (q lc pads : Nat) (out : List Nat) :
    a2b_loop ('=' :: rest) q lc pads out =
      (if 2 ≤ q then
        if 4 ≤ q + (pads + 1) then .ok out
        else a2b_loop rest q lc (pads + 1) out
      else a2b_loop rest q lc pads out) := by
  rw [a2b_loop, if_pos rfl]

/-- Decoding a full group of four alphabet characters appends three bytes. -/
theorem a2b_quad (n1 n2 n3 n4 : Nat) (s : List Char) (lc pads : Nat) (out : List Nat)
    (h1 : n1 < 64) (h2 : n2 < 64) (h3 : n3 < 64) (h4 : n4 < 64) :
    a2b_loop (table_b2a_base64 n1 :: table_b2a_base64 n2 :: table_b2a_base64 n3 ::
        table_b2a_base64 n4 :: s) 0 lc pads out =
      a2b_loop s 0 0 0
        (out ++ [n1 * 4 + n2 / 16, n2 % 16 * 16 + n3 / 4, n3 % 4 * 64 + n4]) := by
  rw [a2b_data0 n1 h1, a2b_data1 n2 h2, a2b_data2 n3 h3, a2b_data3 n4 h4]
  simp

/-- Decoding a final `xx==` group appends one byte and succeeds. -/
theorem a2b_tail1 (n1 n2 : Nat) (lc pads : Nat) (out : List Nat)
    (h1 : n1 < 64) (h2 : n2 < 64) :
    a2b_loop [table_b2a_base64 n1, table_b2a_base64 n2, '=', '='] 0 lc pads out =
      .ok (out ++ [n1 * 4 + n2 / 16]) := by
  rw [a2b_data0 n1 h1, a2b_data1 n2 h2, a2b_pad, if_pos (by omega), if_neg (by omega),
    a2b_pad, if_pos (by omega), if_pos (by omega)]

/-- Decoding a final `xxx=` group appends two bytes and succeeds. -/
theorem a2b_tail2 (n1 n2 n3 : Nat) (lc pads : Nat) (out : List Nat)
    (h1 : n1 < 64) (h2 : n2 < 64) (h3 : n3 < 64) :
    a2b_loop [table_b2a_base64 n1, table_b2a_base64 n2, table_b2a_base64 n3, '='] 0 lc pads out =
      .ok (out ++ [n1 * 4 + n2 / 16, n2 % 16 * 16 + n3 / 4]) := by
  rw [a2b_data0 n1 h1, a2b_data1 n2 h2, a2b_data2 n3 h3, a2b_pad, if_pos (by omega),
    if_pos (by omega)]
  simp

/-- Decoding ends successfully at quad position 0. -/
theorem a2b_nil (lc pads : Nat) (out : List Nat) :
    a2b_loop [] 0 lc pads out = .ok out := by
  rw [a2b_loop, if_pos rfl]

/-- The decoding loop inverts the encoding loop, byte-group by byte-group. -/
theorem decode_encode (b : List Nat) (hb : ∀ x ∈ b, x < 256) :
    ∀ (L lc pads : Nat) (out : List Nat),
      a2b_loop (b2a_loop b L 0) 0 lc pads out = .ok (out ++ b) :=
  match b with
  | [] => by intro L lc pads out; rw [b2a_nil, a2b_nil]; simp
  | [b1] => by
    intro L lc pads out
    have h1 : b1 < 256 := hb b1 (by simp)
    rw [b2a_tail1 L b1 h1, a2b_tail1 _ _ _ _ _ (by omega) (by omega)]
    have : b1 / 4 * 4 + b1 % 4 * 16 / 16 = b1 := by omega
    rw [this]
  | [b1, b2] => by
    intro L lc pads out
    have h1 : b1 < 256 := hb b1 (by simp)
    have h2 : b2 < 256 := hb b2 (by simp)
    rw [b2a_tail2 L b1 b2 h1 h2,
      a2b_tail2 _ _ _ _ _ _ (by omega) (by omega) (by omega)]
    have e1 : b1 / 4 * 4 + (b1 % 4 * 16 + b2 / 16) / 16 = b1 := by omega
    have e2 : (b1 % 4 * 16 + b2 / 16) % 16 * 16 + b2 % 16 * 4 / 4 = b2 := by omega
    rw [e1, e2]
  | b1 :: b2 :: b3 :: rest => by
    intro L lc pads out
    have h1 : b1 < 256 := hb b1 (by simp)
    have h2 : b2 < 256 := hb b2 (by simp)
    have h3 : b3 < 256 := hb b3 (by simp)
    obtain ⟨L2, hL2⟩ := b2a_chunk L b1 b2 b3 rest h1 h2 h3
    rw [hL2, a2b_quad _ _ _ _ _ _ _ _ (by omega) (by omega) (by omega) (by omega)]
    have e1 : b1 / 4 * 4 + (b1 % 4 * 16 + b2 / 16) / 16 = b1 := by omega
    have e2 : (b1 % 4 * 16 + b2 / 16) % 16 * 16 + (b2 % 16 * 4 + b3 / 64) / 4 = b2 := by
      omega
    have e3 : (b2 % 16 * 4 + b3 / 64) % 4 * 64 + b3 % 64 = b3 := by omega
    rw [e1, e2, e3]
    have ih := decode_encode rest (fun x hx => hb x (by simp [hx])) L2 0 0
      (out ++ [b1, b2, b3])
    rw [ih]
    simp

/-- Round-trip of the base64 pair on arbitrary byte sequences. -/
theorem b64_roundtrip (b : List Nat) (hb : ∀ x ∈ b, x < 256) :
    b64decode (b64encode b) = .ok b := by
  have := decode_encode b hb 0 0 0 []
  simpa [b64decode, b64encode] using this

/-! ### Document-level lemmas -/

theorem mapGet_mapSet (m : List (String × PyValue)) (k : String) (v dflt : PyValue) :
    mapGet (mapSet m k v) k dflt = v := by
  induction m with
  | nil => simp [mapSet, mapGet]
  | cons hd tl ih =>
    obtain ⟨k1, v1⟩ := hd
    by_cases h : k1 = k
    · simp [mapSet, mapGet, h]
    · simp [mapSet, mapGet, h, ih]

theorem mapGet_absent (m : List (String × PyValue)) (k : String) (dflt : PyValue)
    (h : mapHasKey m k = false) : mapGet m k dflt = dflt := by
  induction m with
  | nil => simp [mapGet]
  | cons hd tl ih =>
    obtain ⟨k1, v1⟩ := hd
    simp [mapHasKey] at h
    simp [mapGet, h.1, ih h.2]

theorem isB64Char_table : ∀ n, n < 64 → isB64Char (table_b2a_base64 n) = true := by
  decide

theorem validGroups_quad (a b c d : Char) (rest : List Char)
    (ha : isB64Char a = true) (hb : isB64Char b = true) (hc : isB64Char c = true)
    (hd : isB64Char d = true) (hrest : validGroups rest = true) :
    validGroups (a :: b :: c :: d :: rest) = true := by
  cases rest with
  | nil => simp [validGroups, ha, hb, hc, hd]
  | cons x xs =>
    simp only [validGroups, List.isEmpty_cons] at hrest ⊢
    simp [ha, hb, hc, hd, hrest]

theorem encode_valid (b : List Nat) (hb : ∀ x ∈ b, x < 256) :
    ∀ L : Nat, validGroups (b2a_loop b L 0) = true :=
  match b with
  | [] => by intro L; rw [b2a_nil]; rfl
  | [b1] => by
    intro L
    have h1 : b1 < 256 := hb b1 (by simp)
    rw [b2a_tail1 L b1 h1]
    simp [validGroups, isB64Char_table _ (by omega : b1 / 4 < 64),
      isB64Char_table _ (by omega : b1 % 4 * 16 < 64)]
  | [b1, b2] => by
    intro L
    have h1 : b1 < 256 := hb b1 (by simp)
    have h2 : b2 < 256 := hb b2 (by simp)
    rw [b2a_tail2 L b1 b2 h1 h2]
    simp [validGroups, isB64Char_table _ (by omega : b1 / 4 < 64),
      isB64Char_table _ (by omega : b1 % 4 * 16 + b2 / 16 < 64),
      isB64Char_table _ (by omega : b2 % 16 * 4 < 64)]
  | b1 :: b2 :: b3 :: rest => by
    intro L
    have h1 : b1 < 256 := hb b1 (by simp)
    have h2 : b2 < 256 := hb b2 (by simp)
    have h3 : b3 < 256 := hb b3 (by simp)
    obtain ⟨L2, hL2⟩ := b2a_chunk L b1 b2 b3 rest h1 h2 h3
    rw [hL2]
    exact validGroups_quad _ _ _ _ _
      (isB64Char_table _ (by omega)) (isB64Char_table _ (by omega))
      (isB64Char_table _ (by omega)) (isB64Char_table _ (by omega))
      (encode_valid rest (fun x hx => hb x (by simp [hx])) L2)

def tidy (d : YBlob) : Prop :=
  (match d.subTableState with
   | none => d.stateActive = []
   | some h => d.stateActive = [(h, "state")] ∧ h < d.nextSub) ∧
  (match d.subTableSource with
   | none => d.sourceActive = []
   | some h => d.sourceActive = [(h, "source")] ∧ h < d.nextSub)

theorem tidy_init : tidy YBlob.init := ⟨rfl, rfl⟩

theorem unobserve_eq (d : YBlob) (h : tidy d) :
    YBlob.unobserve d =
      { d with stateActive := [], sourceActive := [],
               subTableState := none, subTableSource := none } := by
  obtain ⟨ys, yso, sa, soa, sts, stso, ns⟩ := d
  obtain ⟨h1, h2⟩ := h
  cases sts with
  | none =>
    cases stso with
    | none => simp_all [YBlob.unobserve]
    | some hdl => simp_all [YBlob.unobserve, List.filter]
  | some hdl =>
    cases stso with
    | none => simp_all [YBlob.unobserve, List.filter]
    | some hdl2 => simp_all [YBlob.unobserve, List.filter]

theorem observe_eq (d : YBlob) (h : tidy d) :
    YBlob.observe d =
      { d with stateActive := [(d.nextSub, "state")],
               sourceActive := [(d.nextSub + 1, "source")],
               subTableState := some d.nextSub,
               subTableSource := some (d.nextSub + 1),
               nextSub := d.nextSub + 2 } := by
  unfold YBlob.observe
  rw [unobserve_eq d h]
  simp

theorem tidy_observe (d : YBlob) (h : tidy d) : tidy (YBlob.observe d) := by
  rw [observe_eq d h]
  refine ⟨⟨rfl, ?_⟩, ⟨rfl, ?_⟩⟩ <;> simp

theorem tidy_iter (n : Nat) : tidy (iterObserve n YBlob.init) := by
  induction n with
  | zero => exact tidy_init
  | succ k ih => exact tidy_observe _ ih

theorem observe_lengths (d : YBlob) (h : tidy d) :
    (YBlob.observe d).stateActive.length = 1 ∧ (YBlob.observe d).sourceActive.length = 1 := by
  rw [observe_eq d h]
  constructor <;> rfl

theorem unobserve_lengths (d : YBlob) (h : tidy d) :
    (YBlob.unobserve d).stateActive.length = 0 ∧
      (YBlob.unobserve d).sourceActive.length = 0 := by
  rw [unobserve_eq d h]
  constructor <;> rfl

theorem encode_demo : String.mk (b64encode [0, 1, 255]) = "AAH/" := by
  obtain ⟨L2, h⟩ := b2a_chunk 0 0 1 255 [] (by omega) (by omega) (by omega)
  rw [b2a_nil] at h
  unfold b64encode
  rw [h]
  decide

theorem get_set_bytes (d : YBlob) (b : List Nat) (hb : ∀ x ∈ b, x < 256) :
    YBlob.get (YBlob.set d (.bytes b)) = .ok b := by
  simp only [YBlob.set, YBlob.get, mapGet_mapSet]
  exact b64_roundtrip b hb

theorem set_stores_encoding (d : YBlob) (b : List Nat) :
    mapGet ((YBlob.set d (.bytes b)).ysource) "base64" (.str "") =
      .str (String.mk (b64encode b)) := by
  simp only [YBlob.set, mapGet_mapSet]

/-- C1: for every byte sequence b, get() after set(b) returns exactly b. -/
theorem C1_set_get_roundtrip (d : YBlob) (b : List Nat) (hb : ∀ x ∈ b, x < 256) :
    YBlob.get (YBlob.set d (.bytes b)) = .ok b :=
  get_set_bytes d b hb

theorem C1_witness :
    (∀ x ∈ [0, 1, 255], x < 256) ∧
      YBlob.get (YBlob.set YBlob.init (.bytes [0, 1, 255])) = .ok [0, 1, 255] :=
  ⟨by decide, C1_set_get_roundtrip YBlob.init [0, 1, 255] (by decide)⟩

/-- C2 counterexample: the stored value "!!!!" is not valid base64 text, yet
get() silently returns the empty byte sequence instead of raising. -/
theorem C2_counterexample :
    isValidBase64 "!!!!" = false ∧
      YBlob.get { YBlob.init with ysource := [("base64", .str "!!!!")] } = .ok [] := by
  exact ⟨rfl, rfl⟩

/-- The decoding loop can only succeed or raise a binascii error: no other
exception is reachable from it, whatever the input characters and state. -/
theorem a2b_ok_or_binascii : ∀ (s : List Char) (q lc pads : Nat) (out : List Nat),
    (∃ bs, a2b_loop s q lc pads out = .ok bs) ∨
      (∃ m, a2b_loop s q lc pads out = .error (.binascii m)) := by
  intro s
  induction s with
  | nil =>
    intro q lc pads out
    rw [a2b_loop]
    split
    · exact .inl ⟨out, rfl⟩
    · split
      · exact .inr ⟨_, rfl⟩
      · exact .inr ⟨_, rfl⟩
  | cons c rest ih =>
    intro q lc pads out
    rw [a2b_loop]
    split
    · split
      · split
        · exact .inl ⟨out, rfl⟩
        · exact ih _ _ _ _
      · exact ih _ _ _ _
    · split
      · exact ih _ _ _ _
      · split <;> exact ih _ _ _ _

/-- C2 amended: get() never raises a CorruptedContentError (no such type
exists): for every stored string value it either returns decoded bytes or
raises binascii.Error; and it does not detect every malformed value, since
the invalid stored value "!!!!" silently decodes to the empty byte
sequence. -/
theorem C2_amended_decode_behavior (d : YBlob) (s : String)
    (h : mapGet d.ysource "base64" (.str "") = .str s) :
    ((∃ bs, YBlob.get d = .ok bs) ∨ (∃ m, YBlob.get d = .error (.binascii m))) ∧
      isValidBase64 "!!!!" = false ∧
      YBlob.get { YBlob.init with ysource := [("base64", .str "!!!!")] } = .ok [] := by
  refine ⟨?_, rfl, rfl⟩
  unfold YBlob.get
  rw [h]
  exact a2b_ok_or_binascii s.data 0 0 0 []

theorem C2_witness :
    (mapGet ({ YBlob.init with ysource := [("base64", PyValue.str "!!!!")] } : YBlob).ysource
        "base64" (.str "") = .str "!!!!") ∧
      (((∃ bs, YBlob.get { YBlob.init with ysource := [("base64", PyValue.str "!!!!")] } = .ok bs) ∨
        (∃ m, YBlob.get { YBlob.init with ysource := [("base64", PyValue.str "!!!!")] } =
          .error (.binascii m))) ∧
        isValidBase64 "!!!!" = false ∧
        YBlob.get { YBlob.init with ysource := [("base64", .str "!!!!")] } = .ok []) :=
  ⟨rfl, C2_amended_decode_behavior { YBlob.init with ysource := [("base64", PyValue.str "!!!!")] }
    "!!!!" rfl⟩

/-- C3 counterexample: set with an int, neither bytes nor str, raises nothing
and mutates the document: the int is stored under source "base64". -/
theorem C3_counterexample :
    YBlob.set YBlob.init (.int 42) ≠ YBlob.init ∧
      (YBlob.set YBlob.init (.int 42)).ysource = [("base64", .int 42)] := by
  exact ⟨by decide, rfl⟩

/-- C3 amended: set performs no type validation; a value that is neither
bytes nor str is stored as-is under source "base64" (the call mutates the
document and raises no error). -/
theorem C3_amended_no_validation (d : YBlob) (n : Int) :
    YBlob.set d (.int n) = { d with ysource := mapSet d.ysource "base64" (.int n) } :=
  rfl

/-- C4 counterexample: one set call with the string "!!!" leaves a
non-base64 string stored under source "base64", violating the invariant. -/
theorem C4_counterexample :
    (YBlob.set YBlob.init (.str "!!!")).ysource = [("base64", .str "!!!")] ∧
      isValidBase64 "!!!" = false := by
  exact ⟨rfl, rfl⟩

/-- C4 amended: the invariant holds for the bytes path: after set with any
byte sequence the stored field is valid base64 text; the string path stores
its argument unchecked, so only callers keep the invariant there. -/
theorem C4_amended_bytes_invariant (d : YBlob) (b : List Nat) (hb : ∀ x ∈ b, x < 256) :
    mapGet ((YBlob.set d (.bytes b)).ysource) "base64" (.str "") =
        .str (String.mk (b64encode b)) ∧
      isValidBase64 (String.mk (b64encode b)) = true := by
  exact ⟨set_stores_encoding d b, encode_valid b hb 0⟩

theorem C4_witness :
    (∀ x ∈ [104, 105], x < 256) ∧
      (mapGet ((YBlob.set YBlob.init (.bytes [104, 105])).ysource) "base64" (.str "") =
          .str (String.mk (b64encode [104, 105])) ∧
        isValidBase64 (String.mk (b64encode [104, 105])) = true) :=
  ⟨by decide, C4_amended_bytes_invariant YBlob.init [104, 105] (by decide)⟩

/-- C5: after any number of successive observe calls there is exactly one
active subscription per node (state, source); unobserve then leaves zero. -/
theorem C5_observe_idempotent (n : Nat) :
    (iterObserve (n + 1) YBlob.init).stateActive.length = 1 ∧
      (iterObserve (n + 1) YBlob.init).sourceActive.length = 1 ∧
      (YBlob.unobserve (iterObserve (n + 1) YBlob.init)).stateActive.length = 0 ∧
      (YBlob.unobserve (iterObserve (n + 1) YBlob.init)).sourceActive.length = 0 := by
  obtain ⟨a1, a2⟩ := observe_lengths _ (tidy_iter n)
  obtain ⟨a3, a4⟩ := unobserve_lengths _ (tidy_iter (n + 1))
  exact ⟨a1, a2, a3, a4⟩

/-- C6: set with a valid base64 string stores the string itself, unchanged:
reading the raw stored field yields exactly it. -/
theorem C6_string_passthrough (d : YBlob) (s : String) (hs : isValidBase64 s = true) :
    mapGet ((YBlob.set d (.str s)).ysource) "base64" (.str "") = .str s := by
  simp only [YBlob.set, mapGet_mapSet]

theorem C6_witness :
    isValidBase64 "AAH/" = true ∧
      mapGet ((YBlob.set YBlob.init (.str "AAH/")).ysource) "base64" (.str "") =
        .str "AAH/" :=
  ⟨by decide, C6_string_passthrough YBlob.init "AAH/" (by decide)⟩

/-- C7: while observing, a mutation of the source node invokes the callback
exactly once, with label "source" (never "state"); a mutation of the state
node invokes it with label "state"; a set call keeps this so. -/
theorem C7_notification (n : Nat) (v : PyValue) :
    sourceEventLabels (YBlob.observe (iterObserve n YBlob.init)) = ["source"] ∧
      stateEventLabels (YBlob.observe (iterObserve n YBlob.init)) = ["state"] ∧
      sourceEventLabels (YBlob.set (YBlob.observe (iterObserve n YBlob.init)) v) =
        ["source"] := by
  rw [observe_eq _ (tidy_iter n)]
  exact ⟨rfl, rfl, rfl⟩

/-- C8: set with bytes stores the base64 encoding as a string; in particular
set [0, 1, 255] stores "AAH/" and get() then returns [0, 1, 255]. -/
theorem C8_bytes_encoding (d : YBlob) (b : List Nat) (hb : ∀ x ∈ b, x < 256) :
    mapGet ((YBlob.set d (.bytes b)).ysource) "base64" (.str "") =
        .str (String.mk (b64encode b)) ∧
      String.mk (b64encode [0, 1, 255]) = "AAH/" ∧
      YBlob.get (YBlob.set d (.bytes [0, 1, 255])) = .ok [0, 1, 255] :=
  ⟨set_stores_encoding d b, encode_demo, get_set_bytes d [0, 1, 255] (by decide)⟩

theorem C8_witness :
    (∀ x ∈ [255, 254, 7], x < 256) ∧
      (mapGet ((YBlob.set YBlob.init (.bytes [255, 254, 7])).ysource) "base64" (.str "") =
          .str (String.mk (b64encode [255, 254, 7])) ∧
        String.mk (b64encode [0, 1, 255]) = "AAH/" ∧
        YBlob.get (YBlob.set YBlob.init (.bytes [0, 1, 255])) = .ok [0, 1, 255]) :=
  ⟨by decide, C8_bytes_encoding YBlob.init [255, 254, 7] (by decide)⟩

/-- C9: when the key "base64" is absent from the source map, get() returns
the empty byte sequence. -/
theorem C9_absent_key (d : YBlob) (h : mapHasKey d.ysource "base64" = false) :
    YBlob.get d = .ok [] := by
  unfold YBlob.get
  rw [mapGet_absent d.ysource "base64" (.str "") h]
  rfl

theorem C9_witness :
    mapHasKey YBlob.init.ysource "base64" = false ∧ YBlob.get YBlob.init = .ok [] :=
  ⟨by decide, C9_absent_key YBlob.init (by decide)⟩

/-- C10: the version accessor returns the constant "1.0.0" in every document
state. -/
theorem C10_version (d : YBlob) : YBlob.version d = "1.0.0" := rfl
